import Mathlib

/-!
Verification of the voice-library backend against its specification.

The development shallowly embeds the three Python source files:

* `AudioApi`   — the FastAPI audio file server (`/audio`, `/stream_audio`);
* `ModelInfo`  — the FastAPI model/hardware query service backed by a
  Supabase (PostgREST) table client;
* `ModelFetch` — the model-hub scraper that fetches metadata, writes CSV
  rows and upserts rows into the store.

Python strings are modelled by Lean `String`, but every string operation
the code uses (`lower`, `replace`, `strip`, `split`, slicing, `join`) is
re-implemented here over `String.data` so that all definitions are
kernel-computable; the Lean core versions of these operations work on
UTF-8 byte positions and do not reduce.
-/

/-- Strip characters satisfying `p` from both ends of a character list
(Python `str.strip`). -/
def stripBy (p : Char → Bool) (l : List Char) : List Char :=
  ((l.dropWhile p).reverse.dropWhile p).reverse

/-- Python `s.strip()` (whitespace on both ends). -/
def pyStripWs (s : String) : String := ⟨stripBy Char.isWhitespace s.data⟩

/-- Python `s.strip(c)` for a single character `c`. -/
def pyStripChar (c : Char) (s : String) : String := ⟨stripBy (· == c) s.data⟩

/-- Python `s.lower()` (ASCII case folding, as used by Postgres `ilike`
on ASCII data). -/
def pyLower (s : String) : String := ⟨s.data.map Char.toLower⟩

/-- Python `s[:n]` (slicing by code points). -/
def pyTake (n : Nat) (s : String) : String := ⟨s.data.take n⟩

/-- Replace every non-overlapping occurrence of `pat` by `rep`, scanning
left to right (Python `str.replace` for a non-empty pattern; for an empty
pattern this returns the input unchanged, a case the code never uses). -/
def replaceAll (pat rep : List Char) : List Char → List Char
  | [] => []
  | c :: s =>
    if pat.isPrefixOf (c :: s) ∧ pat ≠ [] then
      rep ++ replaceAll pat rep ((c :: s).drop pat.length)
    else
      c :: replaceAll pat rep s
termination_by s => s.length
decreasing_by
  · simp only [List.length_drop, List.length_cons]
    rename_i hp
    have hlen : 1 ≤ pat.length := by
      cases pat with
      | nil => exact absurd rfl hp.2
      | cons a l => simp
    omega
  · simp

/-- Python `s.replace(pat, rep)`. -/
def pyReplace (s pat rep : String) : String := ⟨replaceAll pat.data rep.data s.data⟩

/-- Spec-side reading used to state claim C2: literal case-insensitive
substring containment.  This is what the spec's "case-insensitive
substring search" asserts; the code-side semantics of the `ilike`
filter is `ilikeMatches` below, and the two agree exactly on query
strings free of SQL wildcard and escape characters. -/
def istrContains (s q : String) : Bool :=
  decide (List.IsInfix (pyLower q).data (pyLower s).data)

/-- SQL `LIKE` pattern matching: `%` matches any (possibly empty)
character sequence, `_` matches exactly one character, every other
pattern character matches itself.  (The optional escape character of
Postgres `LIKE` is not modelled; every statement below that relies on
this definition restricts the user-supplied part of the pattern to be
free of the backslash as well.) -/
def likeMatch : List Char → List Char → Bool
  | [], t => t.isEmpty
  | p :: ps, t =>
    if p = '%' then
      t.tails.any (fun suf => likeMatch ps suf)
    else
      match t with
      | [] => false
      | c :: ts => (if p = '_' then true else p == c) && likeMatch ps ts

/-- The PostgREST `ilike(column, pattern)` filter: PostgREST first
translates `*` in the pattern to `%`, then Postgres `ILIKE` performs
case-insensitive `LIKE` matching, modelled as `LIKE` over the
case-folded pattern and value. -/
def ilikeMatches (pattern s : String) : Bool :=
  likeMatch ((pattern.data.map (fun c => if c = '*' then '%' else c)).map Char.toLower)
    (pyLower s).data

/-- Python `sep.join(xs)` on a list of strings. -/
def joinSep (sep : List Char) : List (List Char) → List Char
  | [] => []
  | [x] => x
  | x :: y :: xs => x ++ sep ++ joinSep sep (y :: xs)

/-- Split off the text before the first occurrence of `sep` and the text
after it: `findSplit sep s = some (pre, post)` iff `s = pre ++ sep ++ post`
with `pre` shortest.  `none` when `sep` does not occur in `s` (for the
empty separator and nonempty `s` this finds an occurrence at position 0,
matching Python `in`). -/
def findSplit (sep : List Char) : List Char → Option (List Char × List Char)
  | [] => none
  | c :: s =>
    if sep.isPrefixOf (c :: s) then
      some ([], (c :: s).drop sep.length)
    else
      match findSplit sep s with
      | none => none
      | some (pre, post) => some (c :: pre, post)

/-- A Python value as it appears in the JSON metadata dictionaries the
scraper manipulates: `None`, a string, an integer, or a list. -/
inductive PyVal where
  | pnone : PyVal
  | pstr : String → PyVal
  | pint : Int → PyVal
  | plist : List PyVal → PyVal

/-- Python truthiness for the values above (`if x:`). -/
def pyTruthy : PyVal → Bool
  | .pnone => false
  | .pstr s => s != ""
  | .pint n => n != 0
  | .plist xs => !xs.isEmpty

/-- Python `a or b`. -/
def pyOr (a b : PyVal) : PyVal := if pyTruthy a then a else b

mutual

/-- Auxiliary rendering of a value inside a list, approximating Python
`repr` (string escaping inside reprs is not modelled; no claim depends
on it). -/
def pyReprAux : PyVal → String
  | .pnone => "None"
  | .pstr s => "\x27" ++ s ++ "\x27"
  | .pint n => toString n
  | .plist xs => "[" ++ ⟨joinSep ", ".data (pyReprList xs)⟩ ++ "]"

/-- Renderings of the elements of a list value. -/
def pyReprList : List PyVal → List (List Char)
  | [] => []
  | v :: vs => (pyReprAux v).data :: pyReprList vs

end

/-- Python `str(x)`. -/
def pyStr : PyVal → String
  | .pnone => "None"
  | .pstr s => s
  | .pint n => toString n
  | .plist xs => "[" ++ ⟨joinSep ", ".data (pyReprList xs)⟩ ++ "]"

/-- Python `d.get(k)` on a dictionary (association list), default `None`. -/
def dictGet (d : List (String × PyVal)) (k : String) : PyVal :=
  (((d.find? (fun p => p.1 == k)).map (fun p => p.2)).getD .pnone)

/-- Python `d.get(k, dflt)`. -/
def dictGetD (d : List (String × PyVal)) (k : String) (dflt : PyVal) : PyVal :=
  (((d.find? (fun p => p.1 == k)).map (fun p => p.2)).getD dflt)

/-- Check that every element of a list is a string, returning the strings
(the check Python `str.join` performs element by element). -/
def allStrings : List PyVal → Option (List String)
  | [] => some []
  | .pstr s :: rest => (allStrings rest).map (fun l => s :: l)
  | _ => none

/-- Python `sep.join(x)`: joins a list of strings, iterates a string by
characters, and raises `TypeError` on anything else. -/
def pyJoin (sep : String) : PyVal → Except String String
  | .plist xs =>
    match allStrings xs with
    | some ss => .ok ⟨joinSep sep.data (ss.map (fun s => s.data))⟩
    | none => .error "TypeError: sequence item: expected str instance"
  | .pstr s => .ok ⟨joinSep sep.data (s.data.map (fun c => [c]))⟩
  | _ => .error "TypeError: can only join an iterable"

namespace AudioApi

/-- Bytes of the configured audio file, as natural numbers. -/
abbrev FileBytes := List Nat

/-- The three response shapes the audio endpoints produce: a plain
response with a status code and text body, a whole-file response
(`FileResponse`), and a chunked streaming response
(`StreamingResponse`). -/
inductive FResponse where
  | plain : Nat → String → FResponse
  | fileResp : FileBytes → String → FResponse
  | streamResp : List FileBytes → String → FResponse
deriving DecidableEq

/-- Size of one read window: `1024 * 64` bytes, from
`f.read(1024 * 64)`. -/
def chunkSize : Nat := 1024 * 64

/-- The `audio_generator` loop of `stream_audio`: repeatedly read
`chunkSize` bytes and yield the chunk while it is nonempty. -/
def chunkFile (bs : FileBytes) : List FileBytes :=
  if h : bs = [] then []
  else bs.take chunkSize :: chunkFile (bs.drop chunkSize)
termination_by bs.length
decreasing_by
  simp only [List.length_drop]
  have hpos : 0 < bs.length := List.length_pos.mpr h
  have : 0 < chunkSize := by decide
  omega

/-- GET `/audio`: 404 if the file does not exist, otherwise the whole
file with media type `audio/mpeg`.  The file system is modelled as the
optional byte contents of the configured path. -/
def get_audio (fs : Option FileBytes) : FResponse :=
  match fs with
  | none => .plain 404 "Audio file not found"
  | some c => .fileResp c "audio/mpeg"

/-- GET `/stream_audio`: 404 if the file does not exist, otherwise the
chunked stream with media type `audio/mpeg`. -/
def stream_audio (fs : Option FileBytes) : FResponse :=
  match fs with
  | none => .plain 404 "Audio file not found"
  | some c => .streamResp (chunkFile c) "audio/mpeg"

end AudioApi

/-- A Supabase/PostgREST table query as the service builds it: a chain of
row filters (`eq`, `ilike`, `gte`, `in_`) and an optional inclusive
`range(from, to)` window.  `run` models `execute()` against a table
snapshot: filters are applied in chain order, then the window selects
rows `from..to` (PostgREST ranges are inclusive on both ends). -/
structure SupaQuery (ρ : Type) where
  filters : List (ρ → Bool)
  rng : Option (Int × Int)

/-- Model of `supabase.table(t).select("*")`: the empty query. -/
def SupaQuery.select (ρ : Type) : SupaQuery ρ := ⟨[], none⟩

/-- Append one filter to the chain; `eq`, `ilike`, `gte` and `in_` are
all instances with the corresponding row predicate. -/
def SupaQuery.addFilter {ρ : Type} (q : SupaQuery ρ) (p : ρ → Bool) : SupaQuery ρ :=
  ⟨q.filters ++ [p], q.rng⟩

/-- Model of `.range(a, b)` (inclusive bounds). -/
def SupaQuery.range {ρ : Type} (q : SupaQuery ρ) (a b : Int) : SupaQuery ρ :=
  ⟨q.filters, some (a, b)⟩

/-- Model of `.execute()` against a table snapshot. -/
def SupaQuery.run {ρ : Type} (q : SupaQuery ρ) (store : List ρ) : List ρ :=
  let filtered := q.filters.foldl (fun rows p => rows.filter p) store
  match q.rng with
  | none => filtered
  | some (a, b) => (filtered.drop a.toNat).take (b - a + 1).toNat

/-- Outcome of a FastAPI endpoint: a JSON value or an `HTTPException`
with a status code and a detail string. -/
inductive ApiResult (α : Type) where
  | ok : α → ApiResult α
  | httpError : Nat → String → ApiResult α
deriving DecidableEq

/-- A FastAPI `HTTPException` as raised inside a handler. -/
structure HTTPException where
  status_code : Nat
  detail : String
deriving DecidableEq

/-- Python `str(e)` for an `HTTPException` (Starlette renders
`f"{status_code}: {detail}"`). -/
def HTTPException.toText (e : HTTPException) : String :=
  toString e.status_code ++ ": " ++ e.detail

namespace ModelInfo

/-- A row of the `models` table, with the columns `update_supabase`
maintains. -/
structure ModelRow where
  model_id : String
  author : String
  downloads : Int
  likes : Int
  tags : List String
  pipeline_tag : String
  description : String
  model_type : String
  last_modified : String
  readme : String
  updated_at : String
deriving DecidableEq

/-- The text columns of the `models` table by name; `ilike` on any other
name (a non-text column or an unknown column) is a Postgres error, which
the handler surfaces as a 500. -/
def textColumn? : String → Option (ModelRow → String)
  | "model_id" => some (fun r => r.model_id)
  | "author" => some (fun r => r.author)
  | "pipeline_tag" => some (fun r => r.pipeline_tag)
  | "description" => some (fun r => r.description)
  | "model_type" => some (fun r => r.model_type)
  | "last_modified" => some (fun r => r.last_modified)
  | "readme" => some (fun r => r.readme)
  | "updated_at" => some (fun r => r.updated_at)
  | _ => none

/-- Response shape of `/models` and `/search`. -/
structure ModelsPage where
  models : List ModelRow
  count : Nat
  offset : Int
  limit : Int
deriving DecidableEq

/-- Response shape of `/models/batch`. -/
structure BatchPage where
  models : List ModelRow
  count : Nat
  not_found : List String
deriving DecidableEq

/-- GET `/model/{model_id}`: select rows with the given `model_id`; an
empty result raises `HTTPException(404, ...)` inside the `try` block,
and the enclosing `except Exception` handler re-raises every exception
as `HTTPException(500, str(e))`. -/
def get_model_info (store : List ModelRow) (model_id : String) : ApiResult ModelRow :=
  let response :=
    ((SupaQuery.select ModelRow).addFilter (fun r => r.model_id == model_id)).run store
  let body : Except HTTPException ModelRow :=
    match response with
    | [] => .error ⟨404, "Model " ++ model_id ++ " not found"⟩
    | r :: _ => .ok r
  match body with
  | .ok r => .ok r
  | .error e => .httpError 500 e.toText

/-- GET `/models`: the `author` filter is added only when the parameter
is truthy (`if author:`), then `range(offset, offset + limit - 1)`. -/
def list_models (store : List ModelRow) (author : Option String)
    (limit offset : Int) : ModelsPage :=
  let query := SupaQuery.select ModelRow
  let query :=
    match author with
    | some a => if a != "" then query.addFilter (fun r => r.author == a) else query
    | none => query
  let data := (query.range offset (offset + limit - 1)).run store
  ⟨data, data.length, offset, limit⟩

/-- GET `/search`: `ilike(field, f"%{q}%")` with the raw query string
interpolated into the pattern, then `range(offset, offset + limit - 1)`. -/
def search_models (store : List ModelRow) (q : String) (field : String)
    (limit offset : Int) : ApiResult ModelsPage :=
  match textColumn? field with
  | none => .httpError 500 ("column " ++ field ++ " does not exist")
  | some col =>
    let data :=
      (((SupaQuery.select ModelRow).addFilter
          (fun r => ilikeMatches ("%" ++ q ++ "%") (col r))).range
        offset (offset + limit - 1)).run store
    .ok ⟨data, data.length, offset, limit⟩

/-- Insertion into a Python dict (order-preserving, overwriting in
place). -/
def dictInsert (d : List (String × ModelRow)) (k : String) (v : ModelRow) :
    List (String × ModelRow) :=
  if d.any (fun p => p.1 == k) then
    d.map (fun p => if p.1 == k then (k, v) else p)
  else
    d ++ [(k, v)]

/-- Lookup in a Python dict modelled as an association list. -/
def lookupD {α : Type} (d : List (String × α)) (k : String) : Option α :=
  (d.find? (fun p => p.1 == k)).map (fun p => p.2)

/-- POST `/models/batch`: one `in_('model_id', ids)` query, a dict from
`model_id` to row, then one pass over the requested ids appending either
the found row or the id to `not_found`. -/
def get_multiple_models (store : List ModelRow) (ids : List String) : BatchPage :=
  let data :=
    ((SupaQuery.select ModelRow).addFilter (fun r => ids.contains r.model_id)).run store
  let found_models := data.foldl (fun d m => dictInsert d m.model_id m) []
  let pair :=
    ids.foldl
      (fun (acc : List ModelRow × List String) mid =>
        match lookupD found_models mid with
        | some m => (acc.1 ++ [m], acc.2)
        | none => (acc.1, acc.2 ++ [mid]))
      ([], [])
  ⟨pair.1, pair.1.length, pair.2⟩

/-- A row of the `hardware` table.  The float-valued columns
(`performance_score`, `price`) and the JSON `specs` column are omitted:
no endpoint filters on them and no claim mentions them (floating point
is not representable in this embedding). -/
structure HardwareRow where
  name : String
  type : String
  manufacturer : Option String
  memory : Option Int
deriving DecidableEq

/-- Response shape of `/hardware`. -/
structure HardwarePage where
  hardware : List HardwareRow
  count : Nat
  offset : Int
  limit : Int
deriving DecidableEq

/-- GET `/hardware`: each filter is added only when the parameter is
truthy (`if type:`, `if manufacturer:`, `if min_memory:`); `gte` on a
NULL `memory` column is SQL-false. -/
def list_hardware (store : List HardwareRow) (type manufacturer : Option String)
    (min_memory : Option Int) (limit offset : Int) : HardwarePage :=
  let query := SupaQuery.select HardwareRow
  let query :=
    match type with
    | some t => if t != "" then query.addFilter (fun r => r.type == t) else query
    | none => query
  let query :=
    match manufacturer with
    | some m => if m != "" then query.addFilter (fun r => r.manufacturer == some m) else query
    | none => query
  let query :=
    match min_memory with
    | some n =>
      if n != 0 then
        query.addFilter (fun r =>
          match r.memory with
          | some v => decide (n ≤ v)
          | none => false)
      else query
    | none => query
  let data := (query.range offset (offset + limit - 1)).run store
  ⟨data, data.length, offset, limit⟩

end ModelInfo

namespace ModelFetch

/-- The observable part of a `requests.get` response: status code and
body text. -/
structure HttpTextResponse where
  status_code : Int
  text : String
deriving DecidableEq

/-- ModelFetcher.get_model_info.  The two network calls are modelled by
their observable outcomes: `metaStatus` and `metaJson` are the status
code and parsed JSON body of the model-metadata request (the body is
assumed to parse; a parse failure would be caught by the same `except`
and also yield `None`), `readmeResp` is the raw README response.  A
non-200 metadata status raises, the `except` catches it, and the
function returns `None`; otherwise it returns the metadata dictionary,
whose `readme` entry is the README body on a 200 and the literal
`"No README available"` otherwise. -/
def get_model_info (metaStatus : Int) (metaJson : List (String × PyVal))
    (readmeResp : HttpTextResponse) (model_id : String) :
    Option (List (String × PyVal)) :=
  if metaStatus == 200 then
    let readme_content :=
      if readmeResp.status_code == 200 then readmeResp.text
      else "No README available"
    some [("model_id", .pstr model_id),
          ("author", dictGet metaJson "author"),
          ("downloads", dictGet metaJson "downloads"),
          ("likes", dictGet metaJson "likes"),
          ("tags", dictGetD metaJson "tags" (.plist [])),
          ("pipeline_tag", dictGet metaJson "pipeline_tag"),
          ("description", dictGet metaJson "description"),
          ("model_type", dictGet metaJson "model_type"),
          ("readme", .pstr readme_content),
          ("last_modified", dictGet metaJson "lastModified")]
  else none

/-- The `safe_data` record built in `create_models_csv` before cleaning:
every entry is `str(model_info.get(k) or default)` except `tags`, which
is `model_info.get("tags", [])` unwrapped. -/
structure SafeData where
  model_id : String
  author : String
  downloads : String
  likes : String
  tags : PyVal
  pipeline_tag : String
  description : String
  model_type : String
  last_modified : String
  readme : String

/-- Construction of `safe_data` from a metadata dictionary. -/
def buildSafeData (model_id : String) (mi : List (String × PyVal)) : SafeData :=
  ⟨pyStr (pyOr (.pstr model_id) (.pstr "")),
   pyStr (pyOr (dictGet mi "author") (.pstr "")),
   pyStr (pyOr (dictGet mi "downloads") (.pint 0)),
   pyStr (pyOr (dictGet mi "likes") (.pint 0)),
   dictGetD mi "tags" (.plist []),
   pyStr (pyOr (dictGet mi "pipeline_tag") (.pstr "")),
   pyStr (pyOr (dictGet mi "description") (.pstr "")),
   pyStr (pyOr (dictGet mi "model_type") (.pstr "")),
   pyStr (pyOr (dictGet mi "last_modified") (.pstr "")),
   pyStr (pyOr (dictGet mi "readme") (.pstr ""))⟩

/-- Header row of the CSV file. -/
def csvHeaders : List String :=
  ["model_id", "author", "downloads", "likes", "tags", "pipeline_tag",
   "description", "model_type", "last_modified", "readme"]

/-- Building the CSV data row for one model: `safe_data`, the cleaning
steps (newline replacement, strip, timestamp reformatting), the tags
join, and the final field list.  The only operation in this block that
can raise is `", ".join(safe_data["tags"])` (a `TypeError` when a
truthy `tags` value is not a string or a list of strings); that
exception is the `Except.error` case. -/
def buildCsvRow (model_id : String) (mi : List (String × PyVal)) :
    Except String (List String) :=
  let sd := buildSafeData model_id mi
  let description := pyStripWs (pyReplace sd.description "\n" " ")
  let readme := pyStripWs (pyReplace sd.readme "\n" " ")
  let last_modified :=
    if sd.last_modified != "" then
      pyReplace (pyReplace sd.last_modified "T" " ") ".000Z" ""
    else sd.last_modified
  match (if pyTruthy sd.tags then pyJoin ", " sd.tags else .ok "") with
  | .error e => .error e
  | .ok tags_string =>
    .ok [sd.model_id, sd.author, sd.downloads, sd.likes, tags_string,
         sd.pipeline_tag, description, sd.model_type, last_modified,
         pyTake 1000 readme]

/-- Python `url.split("huggingface.co/")[1].strip('/')` when the URL
contains the marker (`[1]` is the segment between the first and second
occurrence), else `url.strip('/')`. -/
def extract_model_id (url : String) : String :=
  let sep := "huggingface.co/".data
  match findSplit sep url.data with
  | some (_, post) =>
    let seg :=
      match findSplit sep post with
      | some (pre2, _) => pre2
      | none => post
    pyStripChar '/' ⟨seg⟩
  | none => pyStripChar '/' url

/-- One iteration of the `for url in urls` loop of `create_models_csv`.
The `oracle` gives the outcome of `fetcher.get_model_info` for each
model id (its network effects).  A `None` fetch writes nothing; a
successful row build writes the data row; an exception inside the `try`
block (the tags join is the only raising operation modelled, and
`update_supabase` catches its own errors) is caught by the `except`
branch, which writes the error row. -/
def processUrl (oracle : String → Option (List (String × PyVal))) (url : String) :
    List (List String) :=
  let model_id := extract_model_id url
  match oracle model_id with
  | none => []
  | some mi =>
    match buildCsvRow model_id mi with
    | .ok row => [row]
    | .error e => [[model_id, "Error: " ++ e, "", "", "", "", "", "", "", ""]]

/-- The error row written by the `except` branch. -/
def errorRow (model_id : String) (e : String) : List String :=
  [model_id, "Error: " ++ e, "", "", "", "", "", "", "", ""]

/-- create_models_csv as the list of rows written to the CSV file:
the header row followed by the rows contributed by each URL in order. -/
def create_models_csv (oracle : String → Option (List (String × PyVal)))
    (urls : List String) : List (List String) :=
  csvHeaders :: (urls.map (processUrl oracle)).flatten

/-- Spec-side condition for the amended claim C8: a `tags` value the
tags join cannot raise on: `None`, or a list of strings. -/
def tagsWellFormed (v : PyVal) : Prop :=
  v = PyVal.pnone ∨ ∃ ss : List String, v = PyVal.plist (ss.map PyVal.pstr)

end ModelFetch

/-- Spec-side reading of the `/models` author filter for claim C3: the
filter is applied exactly when the parameter is given. -/
def ModelInfo.authorFiltered (store : List ModelInfo.ModelRow) :
    Option String → List ModelInfo.ModelRow
  | none => store
  | some a => store.filter (fun r => r.author == a)

namespace AudioApi

lemma chunkFile_nil : chunkFile [] = [] := by
  rw [chunkFile]
  simp

lemma chunkFile_flatten (bs : FileBytes) : (chunkFile bs).flatten = bs := by
  induction bs using chunkFile.induct with
  | case1 =>
    simp [chunkFile_nil]
  | case2 bs h ih =>
    rw [chunkFile, dif_neg h]
    simp only [List.flatten_cons, ih]
    exact List.take_append_drop _ _

lemma chunkFile_ne_nil (bs : FileBytes) : ∀ c ∈ chunkFile bs, c ≠ [] := by
  induction bs using chunkFile.induct with
  | case1 =>
    simp [chunkFile_nil]
  | case2 bs h ih =>
    rw [chunkFile, dif_neg h]
    intro c hc
    rcases List.mem_cons.mp hc with hc | hc
    · subst hc
      simp only [ne_eq, List.take_eq_nil_iff]
      push_neg
      refine ⟨by decide, h⟩
    · exact ih c hc

lemma chunkFile_dropLast (bs : FileBytes) :
    ∀ c ∈ (chunkFile bs).dropLast, c.length = chunkSize := by
  induction bs using chunkFile.induct with
  | case1 =>
    simp [chunkFile_nil]
  | case2 bs h ih =>
    rw [chunkFile, dif_neg h]
    rcases hr : chunkFile (bs.drop chunkSize) with _ | ⟨r, rs⟩
    · simp
    · intro c hc
      have hstep : (bs.take chunkSize :: r :: rs).dropLast
          = bs.take chunkSize :: (r :: rs).dropLast := rfl
      rw [hstep] at hc
      rcases List.mem_cons.mp hc with hc | hc
      · subst hc
        have hdrop : bs.drop chunkSize ≠ [] := by
          intro hd
          rw [hd, chunkFile_nil] at hr
          exact List.cons_ne_nil _ _ hr.symm
        have hlen : chunkSize < bs.length := by
          have := List.length_pos.mpr hdrop
          simp only [List.length_drop] at this
          omega
        simp only [List.length_take]
        omega
      · rw [← hr] at hc
        exact ih c hc

end AudioApi

lemma find?_congr_mem {α : Type} (l : List α) (p q : α → Bool)
    (h : ∀ a ∈ l, p a = q a) : l.find? p = l.find? q := by
  induction l with
  | nil => rfl
  | cons a t ih =>
    have ha := h a (by simp)
    by_cases hq : q a = true
    · rw [List.find?_cons_of_pos _ (by rw [ha]; exact hq), List.find?_cons_of_pos _ hq]
    · have hq' : ¬ p a = true := by rw [ha]; exact hq
      rw [List.find?_cons_of_neg _ hq', List.find?_cons_of_neg _ hq]
      exact ih fun b hb => h b (by simp [hb])

namespace ModelInfo

lemma dictFold_eq_map (data : List ModelRow) :
    ∀ acc : List (String × ModelRow),
      (acc.map Prod.fst ++ data.map (fun m => m.model_id)).Nodup →
      data.foldl (fun d m => dictInsert d m.model_id m) acc
        = acc ++ data.map (fun m => (m.model_id, m)) := by
  induction data with
  | nil =>
    intro acc _
    simp
  | cons m rest ih =>
    intro acc h
    simp only [List.foldl_cons]
    have hnotin : m.model_id ∉ acc.map Prod.fst := by
      intro hmem
      rcases List.nodup_append.mp (by simpa using h) with ⟨_, _, hdisj⟩
      exact hdisj hmem (by simp)
    have hany : acc.any (fun p => p.1 == m.model_id) = false := by
      rw [List.any_eq_false]
      intro p hp hbe
      exact hnotin (List.mem_map.mpr ⟨p, hp, beq_iff_eq.mp hbe⟩)
    have hins : dictInsert acc m.model_id m = acc ++ [(m.model_id, m)] := by
      simp [dictInsert, hany]
    rw [hins, ih (acc ++ [(m.model_id, m)]) ?_]
    · simp
    · simp only [List.map_append, List.map_cons, List.map_nil, List.append_assoc,
        List.singleton_append]
      simpa using h

lemma lookupD_map_pair (data : List ModelRow) (k : String) :
    lookupD (data.map (fun m => (m.model_id, m))) k
      = data.find? (fun m => m.model_id == k) := by
  induction data with
  | nil => rfl
  | cons m rest ih =>
    simp only [List.map_cons]
    by_cases hb : (m.model_id == k) = true
    · have hb' : (fun m : ModelRow => m.model_id == k) m = true := hb
      rw [lookupD, List.find?_cons_of_pos _ (by simpa using hb),
        List.find?_cons_of_pos rest hb']
      rfl
    · have hb' : ¬ (fun m : ModelRow => m.model_id == k) m = true := hb
      rw [lookupD, List.find?_cons_of_neg _ (by simpa using hb),
        List.find?_cons_of_neg rest hb']
      exact ih

lemma batch_loop_eq (fm : List (String × ModelRow)) (ids : List String) :
    ∀ acc : List ModelRow × List String,
      ids.foldl
        (fun (acc : List ModelRow × List String) mid =>
          match lookupD fm mid with
          | some m => (acc.1 ++ [m], acc.2)
          | none => (acc.1, acc.2 ++ [mid])) acc
      = (acc.1 ++ ids.filterMap (fun mid => lookupD fm mid),
         acc.2 ++ ids.filter (fun mid => (lookupD fm mid).isNone)) := by
  induction ids with
  | nil =>
    intro acc
    simp
  | cons i rest ih =>
    intro acc
    simp only [List.foldl_cons]
    cases hl : lookupD fm i with
    | some m =>
      rw [ih]
      simp [List.filterMap_cons, List.filter_cons, hl, List.append_assoc]
    | none =>
      rw [ih]
      simp [List.filterMap_cons, List.filter_cons, hl, List.append_assoc]

end ModelInfo

/-- C1: POST `/models/batch` preserves request order.  When the table's
`model_id` column is duplicate-free (its upsert conflict key), the
returned models list is exactly the store rows whose `model_id` occurs
in `ids`, arranged in the order their ids occur in `ids` (one entry per
requested id occurrence), `not_found` lists the requested ids with no
matching row in request order, and `count` is the length of the models
list. -/
theorem batch_models_preserve_request_order (store : List ModelInfo.ModelRow)
    (ids : List String)
    (h : (store.map (fun r => r.model_id)).Nodup) :
    (ModelInfo.get_multiple_models store ids).models
      = ids.filterMap (fun mid => store.find? (fun r => r.model_id == mid)) ∧
    (ModelInfo.get_multiple_models store ids).not_found
      = ids.filter (fun mid => (store.find? (fun r => r.model_id == mid)).isNone) ∧
    (ModelInfo.get_multiple_models store ids).count
      = (ModelInfo.get_multiple_models store ids).models.length := by
  have hkeys : ((store.filter (fun r => ids.contains r.model_id)).map
      (fun m => m.model_id)).Nodup :=
    ((List.filter_sublist store).map _).nodup h
  have hfold : (store.filter (fun r => ids.contains r.model_id)).foldl
      (fun d m => ModelInfo.dictInsert d m.model_id m) []
      = (store.filter (fun r => ids.contains r.model_id)).map
          (fun m => (m.model_id, m)) := by
    have := ModelInfo.dictFold_eq_map (store.filter (fun r => ids.contains r.model_id))
      [] (by simpa using hkeys)
    simpa using this
  have hlook : ∀ mid ∈ ids,
      ModelInfo.lookupD ((store.filter (fun r => ids.contains r.model_id)).map
        (fun m => (m.model_id, m))) mid
      = store.find? (fun r => r.model_id == mid) := by
    intro mid hmid
    rw [ModelInfo.lookupD_map_pair, List.find?_filter]
    apply find?_congr_mem
    intro r _
    by_cases hm : (r.model_id == mid) = true
    · have hEq : r.model_id = mid := beq_iff_eq.mp hm
      simp [hm, hEq, hmid]
    · simp [hm]
  have h1 : ids.filterMap (fun mid =>
        ModelInfo.lookupD ((store.filter (fun r => ids.contains r.model_id)).map
          (fun m => (m.model_id, m))) mid)
      = ids.filterMap (fun mid => store.find? (fun r => r.model_id == mid)) :=
    List.filterMap_congr hlook
  have h2 : ids.filter (fun mid =>
        (ModelInfo.lookupD ((store.filter (fun r => ids.contains r.model_id)).map
          (fun m => (m.model_id, m))) mid).isNone)
      = ids.filter (fun mid => (store.find? (fun r => r.model_id == mid)).isNone) :=
    List.filter_congr (fun mid hmid => by rw [hlook mid hmid])
  have hpage : ModelInfo.get_multiple_models store ids
      = ⟨ids.filterMap (fun mid => store.find? (fun r => r.model_id == mid)),
         (ids.filterMap (fun mid => store.find? (fun r => r.model_id == mid))).length,
         ids.filter (fun mid => (store.find? (fun r => r.model_id == mid)).isNone)⟩ := by
    simp only [ModelInfo.get_multiple_models, SupaQuery.select, SupaQuery.addFilter,
      SupaQuery.run, List.nil_append, List.foldl_cons, List.foldl_nil]
    rw [hfold, ModelInfo.batch_loop_eq]
    simp only [List.nil_append, h1, h2]
  exact ⟨by rw [hpage], by rw [hpage], by rw [hpage]⟩

/-- Witness for C1: a two-row store queried for an existing id, a
missing id, and the other existing id. -/
theorem batch_models_preserve_request_order_witness :
    (ModelInfo.get_multiple_models
        [⟨"m1", "a", 0, 0, [], "", "", "", "", "", ""⟩,
         ⟨"m2", "b", 0, 0, [], "", "", "", "", "", ""⟩] ["m2", "zz", "m1"]).models
      = (["m2", "zz", "m1"].filterMap (fun mid =>
          ([⟨"m1", "a", 0, 0, [], "", "", "", "", "", ""⟩,
            ⟨"m2", "b", 0, 0, [], "", "", "", "", "", ""⟩] :
              List ModelInfo.ModelRow).find? (fun r => r.model_id == mid))) ∧
    (ModelInfo.get_multiple_models
        [⟨"m1", "a", 0, 0, [], "", "", "", "", "", ""⟩,
         ⟨"m2", "b", 0, 0, [], "", "", "", "", "", ""⟩] ["m2", "zz", "m1"]).not_found
      = (["m2", "zz", "m1"].filter (fun mid =>
          (([⟨"m1", "a", 0, 0, [], "", "", "", "", "", ""⟩,
             ⟨"m2", "b", 0, 0, [], "", "", "", "", "", ""⟩] :
               List ModelInfo.ModelRow).find? (fun r => r.model_id == mid)).isNone)) ∧
    (ModelInfo.get_multiple_models
        [⟨"m1", "a", 0, 0, [], "", "", "", "", "", ""⟩,
         ⟨"m2", "b", 0, 0, [], "", "", "", "", "", ""⟩] ["m2", "zz", "m1"]).count
      = (ModelInfo.get_multiple_models
          [⟨"m1", "a", 0, 0, [], "", "", "", "", "", ""⟩,
           ⟨"m2", "b", 0, 0, [], "", "", "", "", "", ""⟩] ["m2", "zz", "m1"]).models.length :=
  batch_models_preserve_request_order
    [⟨"m1", "a", 0, 0, [], "", "", "", "", "", ""⟩,
     ⟨"m2", "b", 0, 0, [], "", "", "", "", "", ""⟩] ["m2", "zz", "m1"] (by decide)

/-- C4: for every existing audio file, GET `/stream_audio` yields the
file as a sequence of chunks read in fixed 64KB (65536-byte) windows:
no chunk is empty, every chunk except possibly the last has size exactly
65536 bytes, and the concatenation of the chunks in yield order equals
the file's byte contents. -/
theorem stream_audio_64k_chunks (fs : Option AudioApi.FileBytes)
    (content : AudioApi.FileBytes) (h : fs = some content) :
    AudioApi.stream_audio fs
      = AudioApi.FResponse.streamResp (AudioApi.chunkFile content) "audio/mpeg" ∧
    (∀ c ∈ AudioApi.chunkFile content, c ≠ []) ∧
    (∀ c ∈ (AudioApi.chunkFile content).dropLast, c.length = 65536) ∧
    (AudioApi.chunkFile content).flatten = content := by
  subst h
  refine ⟨rfl, AudioApi.chunkFile_ne_nil content, ?_, AudioApi.chunkFile_flatten content⟩
  have hsize : AudioApi.chunkSize = 65536 := rfl
  intro c hc
  rw [← hsize]
  exact AudioApi.chunkFile_dropLast content c hc

/-- Witness for C4 at the one-byte file `[7]`. -/
theorem stream_audio_64k_chunks_witness :
    AudioApi.stream_audio (some [7])
      = AudioApi.FResponse.streamResp (AudioApi.chunkFile [7]) "audio/mpeg" ∧
    (∀ c ∈ AudioApi.chunkFile [7], c ≠ []) ∧
    (∀ c ∈ (AudioApi.chunkFile [7]).dropLast, c.length = 65536) ∧
    (AudioApi.chunkFile [7]).flatten = [7] :=
  stream_audio_64k_chunks (some [7]) [7] rfl

/-- C6: both audio endpoints check existence first: a missing file gives
status 404 with body "Audio file not found" on each; an existing file is
served with media type `audio/mpeg`, whole by `/audio` and as a stream
concatenating back to the contents by `/stream_audio`. -/
theorem audio_endpoints_existence_check (fs : Option AudioApi.FileBytes) :
    (fs = none →
      AudioApi.get_audio fs = AudioApi.FResponse.plain 404 "Audio file not found" ∧
      AudioApi.stream_audio fs = AudioApi.FResponse.plain 404 "Audio file not found") ∧
    (∀ c, fs = some c →
      AudioApi.get_audio fs = AudioApi.FResponse.fileResp c "audio/mpeg" ∧
      AudioApi.stream_audio fs
        = AudioApi.FResponse.streamResp (AudioApi.chunkFile c) "audio/mpeg" ∧
      (AudioApi.chunkFile c).flatten = c) := by
  constructor
  · intro h
    subst h
    exact ⟨rfl, rfl⟩
  · intro c h
    subst h
    exact ⟨rfl, rfl, AudioApi.chunkFile_flatten c⟩

/-- Witness for C6 at a missing file and at the file `[9]`. -/
theorem audio_endpoints_existence_check_witness :
    (AudioApi.get_audio none = AudioApi.FResponse.plain 404 "Audio file not found" ∧
     AudioApi.stream_audio none = AudioApi.FResponse.plain 404 "Audio file not found") ∧
    (AudioApi.get_audio (some [9]) = AudioApi.FResponse.fileResp [9] "audio/mpeg" ∧
     AudioApi.stream_audio (some [9])
       = AudioApi.FResponse.streamResp (AudioApi.chunkFile [9]) "audio/mpeg" ∧
     (AudioApi.chunkFile [9]).flatten = [9]) :=
  ⟨(audio_endpoints_existence_check none).1 rfl,
   (audio_endpoints_existence_check (some [9])).2 [9] rfl⟩

/-- C7: when the model-metadata request succeeds (status 200),
`ModelFetcher.get_model_info` returns a dictionary (it does not raise),
and its `readme` entry is the README response body when that request
returned 200 and the string "No README available" for every other
status. -/
theorem readme_fetch_best_effort (metaJson : List (String × PyVal))
    (readmeResp : ModelFetch.HttpTextResponse) (model_id : String) :
    ∃ d, ModelFetch.get_model_info 200 metaJson readmeResp model_id = some d ∧
      dictGet d "readme"
        = PyVal.pstr (if readmeResp.status_code == 200 then readmeResp.text
                      else "No README available") := by
  refine ⟨_, rfl, ?_⟩
  simp [dictGet, List.find?]

/-- C9: when the store has no row for the requested model id, GET
`/model/{model_id}` responds with status 500, not 404: the 404
`HTTPException` raised inside the `try` block is caught by the generic
handler and re-raised as a 500 whose detail contains the 404's text. -/
theorem get_model_info_missing_returns_500 (store : List ModelInfo.ModelRow)
    (model_id : String) (h : ∀ r ∈ store, r.model_id ≠ model_id) :
    ModelInfo.get_model_info store model_id
      = ApiResult.httpError 500 ("404: " ++ ("Model " ++ model_id ++ " not found")) := by
  have hfil : store.filter (fun r => r.model_id == model_id) = [] :=
    List.filter_eq_nil_iff.mpr (fun r hr => by simpa using h r hr)
  simp only [ModelInfo.get_model_info, SupaQuery.select, SupaQuery.addFilter,
    SupaQuery.run, List.nil_append, List.foldl_cons, List.foldl_nil, hfil,
    HTTPException.toText]
  rw [show ((toString (404 : Nat) ++ ": " : String)) = "404: " from rfl]

/-- Witness for C9: an empty store has no row for "m". -/
theorem get_model_info_missing_returns_500_witness :
    ModelInfo.get_model_info [] "m"
      = ApiResult.httpError 500 ("404: " ++ ("Model " ++ "m" ++ " not found")) :=
  get_model_info_missing_returns_500 [] "m" (by intro r hr; cases hr)

/-- C3: GET `/models` returns the rows at positions `offset` through
`offset + limit - 1` of the table after applying the author filter when
one is given (a given author is a nonempty string; the empty-string case
is claim C10's subject), so the models list has length at most `limit`,
and the `count`, `offset` and `limit` fields echo the list length and
the request parameters. -/
theorem list_models_paginates (store : List ModelInfo.ModelRow)
    (author : Option String) (limit offset : Int)
    (h : author = none ∨ ∃ a, author = some a ∧ a ≠ "") :
    (ModelInfo.list_models store author limit offset).models
      = ((ModelInfo.authorFiltered store author).drop offset.toNat).take limit.toNat ∧
    (ModelInfo.list_models store author limit offset).models.length ≤ limit.toNat ∧
    (ModelInfo.list_models store author limit offset).count
      = (ModelInfo.list_models store author limit offset).models.length ∧
    (ModelInfo.list_models store author limit offset).offset = offset ∧
    (ModelInfo.list_models store author limit offset).limit = limit := by
  have harith : (offset + limit - 1 - offset + 1).toNat = limit.toNat := by omega
  have hmodels : (ModelInfo.list_models store author limit offset).models
      = ((ModelInfo.authorFiltered store author).drop offset.toNat).take limit.toNat := by
    rcases h with h | ⟨a, ha, hne⟩
    · subst h
      simp only [ModelInfo.list_models, ModelInfo.authorFiltered, SupaQuery.select,
        SupaQuery.range, SupaQuery.run, List.foldl_nil, harith]
    · subst ha
      have hb : (a != "") = true := bne_iff_ne.mpr hne
      simp only [ModelInfo.list_models, ModelInfo.authorFiltered, SupaQuery.select,
        SupaQuery.addFilter, SupaQuery.range, SupaQuery.run, hb, if_true,
        List.nil_append, List.foldl_cons, List.foldl_nil, harith]
  refine ⟨hmodels, ?_, rfl, rfl, rfl⟩
  rw [hmodels]
  exact List.length_take_le _ _

/-- Witness for C3: a two-row store, no author filter, limit 1,
offset 1. -/
theorem list_models_paginates_witness :
    (ModelInfo.list_models
        [⟨"m1", "a", 0, 0, [], "", "", "", "", "", ""⟩,
         ⟨"m2", "b", 0, 0, [], "", "", "", "", "", ""⟩] none 1 1).models
      = ((ModelInfo.authorFiltered
            [⟨"m1", "a", 0, 0, [], "", "", "", "", "", ""⟩,
             ⟨"m2", "b", 0, 0, [], "", "", "", "", "", ""⟩] none).drop
          (1 : Int).toNat).take (1 : Int).toNat ∧
    (ModelInfo.list_models
        [⟨"m1", "a", 0, 0, [], "", "", "", "", "", ""⟩,
         ⟨"m2", "b", 0, 0, [], "", "", "", "", "", ""⟩] none 1 1).models.length
      ≤ (1 : Int).toNat ∧
    (ModelInfo.list_models
        [⟨"m1", "a", 0, 0, [], "", "", "", "", "", ""⟩,
         ⟨"m2", "b", 0, 0, [], "", "", "", "", "", ""⟩] none 1 1).count
      = (ModelInfo.list_models
          [⟨"m1", "a", 0, 0, [], "", "", "", "", "", ""⟩,
           ⟨"m2", "b", 0, 0, [], "", "", "", "", "", ""⟩] none 1 1).models.length ∧
    (ModelInfo.list_models
        [⟨"m1", "a", 0, 0, [], "", "", "", "", "", ""⟩,
         ⟨"m2", "b", 0, 0, [], "", "", "", "", "", ""⟩] none 1 1).offset = 1 ∧
    (ModelInfo.list_models
        [⟨"m1", "a", 0, 0, [], "", "", "", "", "", ""⟩,
         ⟨"m2", "b", 0, 0, [], "", "", "", "", "", ""⟩] none 1 1).limit = 1 :=
  list_models_paginates _ none 1 1 (Or.inl rfl)

lemma tails_any_isEmpty (t : List Char) : t.tails.any (fun s => s.isEmpty) = true := by
  induction t with
  | nil => rfl
  | cons a ts ih =>
    rw [List.tails_cons]
    simp [ih]

lemma likeMatch_lit_percent (lit : List Char) (h : ∀ c ∈ lit, c ≠ '%' ∧ c ≠ '_') :
    ∀ t : List Char, likeMatch (lit ++ ['%']) t = lit.isPrefixOf t := by
  induction lit with
  | nil =>
    intro t
    simp only [List.nil_append]
    have h1 : likeMatch ['%'] t = t.tails.any (fun suf => List.isEmpty suf) := by
      simp [likeMatch]
    rw [h1, tails_any_isEmpty]
    simp [List.isPrefixOf]
  | cons c lit ih =>
    intro t
    have hc := h c (by simp)
    cases t with
    | nil =>
      simp [likeMatch, hc.1, List.isPrefixOf]
    | cons a ts =>
      have hstep : likeMatch ((c :: lit) ++ ['%']) (a :: ts)
          = ((if c = '_' then true else c == a) && likeMatch (lit ++ ['%']) ts) := by
        simp [likeMatch, hc.1]
      rw [hstep, if_neg hc.2, ih (fun d hd => h d (by simp [hd])) ts]
      simp [List.isPrefixOf]

lemma likeMatch_sandwich (lit t : List Char) (h : ∀ c ∈ lit, c ≠ '%' ∧ c ≠ '_') :
    likeMatch ('%' :: (lit ++ ['%'])) t = decide (List.IsInfix lit t) := by
  have h1 : likeMatch ('%' :: (lit ++ ['%'])) t
      = t.tails.any (fun suf => likeMatch (lit ++ ['%']) suf) := by
    simp [likeMatch]
  rw [h1]
  have h2 : ∀ suf, likeMatch (lit ++ ['%']) suf = lit.isPrefixOf suf :=
    likeMatch_lit_percent lit h
  simp only [h2]
  by_cases hin : List.IsInfix lit t
  · obtain ⟨s, hp, hs⟩ := List.infix_iff_prefix_suffix.mp hin
    have hany : t.tails.any (fun suf => lit.isPrefixOf suf) = true :=
      List.any_eq_true.mpr ⟨s, (List.mem_tails s t).mpr hs,
        List.isPrefixOf_iff_prefix.mpr hp⟩
    simp [hany, hin]
  · have hany : t.tails.any (fun suf => lit.isPrefixOf suf) = false := by
      rw [List.any_eq_false]
      intro s hsm hp
      exact hin (List.infix_iff_prefix_suffix.mpr
        ⟨s, List.isPrefixOf_iff_prefix.mp hp, (List.mem_tails s t).mp hsm⟩)
    simp [hany, hin]

lemma toLower_ne_of_lt (c d : Char) (hd : d.toNat < 97) (hne : c ≠ d) :
    Char.toLower c ≠ d := by
  intro he
  simp only [Char.toLower] at he
  by_cases hcond : c.toNat ≥ 65 ∧ c.toNat ≤ 90
  · rw [if_pos hcond] at he
    have hv : (c.toNat + 32).isValidChar := by
      left
      omega
    have hval : (Char.ofNat (c.toNat + 32)).toNat = c.toNat + 32 := by
      simp [Char.ofNat, hv]
      rfl
    rw [he] at hval
    omega
  · rw [if_neg hcond] at he
    exact hne he

lemma ilike_eq_istrContains (q : String)
    (hq : ∀ c ∈ q.data, c ≠ '%' ∧ c ≠ '_' ∧ c ≠ '*' ∧ c ≠ '\\') (s : String) :
    ilikeMatches ("%" ++ q ++ "%") s = istrContains s q := by
  have hstar : ∀ c ∈ q.data, (if c = '*' then '%' else c) = c :=
    fun c hc => if_neg (hq c hc).2.2.1
  have hdata : ("%" ++ q ++ "%").data = '%' :: (q.data ++ ['%']) := by
    simp
  have hpc : (if ('%' : Char) = '*' then ('%' : Char) else '%') = '%' := by decide
  have hlc : Char.toLower '%' = '%' := by decide
  have hpat : (("%" ++ q ++ "%").data.map (fun c => if c = '*' then '%' else c)).map
      Char.toLower = '%' :: ((pyLower q).data ++ ['%']) := by
    rw [hdata]
    simp only [List.map_cons, List.map_append, List.map_nil]
    rw [List.map_congr_left hstar, hpc, hlc]
    simp [pyLower]
  simp only [ilikeMatches]
  rw [hpat]
  have hwf : ∀ c ∈ (pyLower q).data, c ≠ '%' ∧ c ≠ '_' := by
    intro c hc
    simp only [pyLower, List.mem_map] at hc
    obtain ⟨a, ha, rfl⟩ := hc
    exact ⟨toLower_ne_of_lt a '%' (by decide) (hq a ha).1,
           toLower_ne_of_lt a '_' (by decide) (hq a ha).2.1⟩
  rw [likeMatch_sandwich _ _ hwf]
  rfl

/-- C2 counterexample: the service interpolates the raw query string
into the ILIKE pattern, so `%` in `q` acts as a wildcard, not a
literal.  For `q = "50%"` the row whose `model_id` is `"50 units"` is
returned (the pattern `%50%%` matches it), yet `"50%"` is not a
case-insensitive substring of `"50 units"` — refuting the claim that
exactly the substring-containing rows are returned, at this input. -/
theorem search_models_wildcard_counterexample :
    (∃ page, ModelInfo.search_models
        [⟨"50 units", "a", 0, 0, [], "", "", "", "", "", ""⟩]
        "50%" "model_id" 10 0 = ApiResult.ok page ∧
      page.models = [⟨"50 units", "a", 0, 0, [], "", "", "", "", "", ""⟩]) ∧
    istrContains "50 units" "50%" = false :=
  ⟨⟨_, rfl, rfl⟩, rfl⟩

/-- C2 (amended): GET `/search` returns exactly the rows of the models
table, within the requested pagination window, whose value in the
requested field contains `q` as a substring under case-insensitive
comparison — for a `field` naming a text column of the table and a
query string `q` free of the SQL LIKE wildcard and escape characters
`%`, `_`, `\` and of PostgREST's wildcard alias `*`.  (For `q`
containing those characters the service performs SQL pattern matching
instead, as the counterexample shows.) -/
theorem search_models_ci_substring (store : List ModelInfo.ModelRow)
    (q field : String) (limit offset : Int) (col : ModelInfo.ModelRow → String)
    (h : ModelInfo.textColumn? field = some col)
    (hq : ∀ c ∈ q.data, c ≠ '%' ∧ c ≠ '_' ∧ c ≠ '*' ∧ c ≠ '\\') :
    ∃ page, ModelInfo.search_models store q field limit offset = ApiResult.ok page ∧
      page.models
        = ((store.filter (fun r => istrContains (col r) q)).drop offset.toNat).take
            limit.toNat ∧
      (∀ r ∈ page.models, r ∈ store ∧ istrContains (col r) q = true) ∧
      page.count = page.models.length ∧
      page.offset = offset ∧
      page.limit = limit := by
  have harith : (offset + limit - 1 - offset + 1).toNat = limit.toNat := by omega
  have hfeq : store.filter (fun r => ilikeMatches ("%" ++ q ++ "%") (col r))
      = store.filter (fun r => istrContains (col r) q) :=
    List.filter_congr (fun r _ => ilike_eq_istrContains q hq (col r))
  simp only [ModelInfo.search_models, h]
  refine ⟨_, rfl, ?_, ?_, rfl, rfl, rfl⟩
  · simp only [SupaQuery.select, SupaQuery.addFilter, SupaQuery.range, SupaQuery.run,
      List.nil_append, List.foldl_cons, List.foldl_nil, harith, hfeq]
  · intro r hr
    simp only [SupaQuery.select, SupaQuery.addFilter, SupaQuery.range, SupaQuery.run,
      List.nil_append, List.foldl_cons, List.foldl_nil, hfeq] at hr
    have h1 : r ∈ (store.filter (fun r => istrContains (col r) q)).drop offset.toNat :=
      List.take_subset _ _ hr
    have h2 : r ∈ store.filter (fun r => istrContains (col r) q) :=
      List.drop_subset _ _ h1
    exact List.mem_filter.mp h2

/-- Witness for the amended C2: one matching and one non-matching row,
searching `model_id` for the wildcard-free query "lam". -/
theorem search_models_ci_substring_witness :
    ∃ page, ModelInfo.search_models
        [⟨"LLaMA", "a", 0, 0, [], "", "", "", "", "", ""⟩,
         ⟨"gpt", "b", 0, 0, [], "", "", "", "", "", ""⟩] "lam" "model_id" 10 0
      = ApiResult.ok page ∧
      page.models
        = ((([⟨"LLaMA", "a", 0, 0, [], "", "", "", "", "", ""⟩,
              ⟨"gpt", "b", 0, 0, [], "", "", "", "", "", ""⟩] :
                List ModelInfo.ModelRow).filter
            (fun r => istrContains (r.model_id) "lam")).drop (0 : Int).toNat).take
            (10 : Int).toNat ∧
      (∀ r ∈ page.models,
        r ∈ ([⟨"LLaMA", "a", 0, 0, [], "", "", "", "", "", ""⟩,
              ⟨"gpt", "b", 0, 0, [], "", "", "", "", "", ""⟩] :
                List ModelInfo.ModelRow) ∧
        istrContains (r.model_id) "lam" = true) ∧
      page.count = page.models.length ∧
      page.offset = 0 ∧
      page.limit = 10 :=
  search_models_ci_substring _ "lam" "model_id" 10 0 (fun r => r.model_id) rfl
    (by decide)

/-- C10: optional filter parameters are tested for truthiness, not
presence: `/models` with an empty `author` equals the unfiltered call,
and `/hardware` with empty `type`, empty `manufacturer`, or
`min_memory = 0` equals the call without that filter. -/
theorem filters_use_truthiness :
    (∀ (store : List ModelInfo.ModelRow) (limit offset : Int),
       ModelInfo.list_models store (some "") limit offset
         = ModelInfo.list_models store none limit offset) ∧
    (∀ (store : List ModelInfo.HardwareRow) (m : Option String) (mm : Option Int)
       (limit offset : Int),
       ModelInfo.list_hardware store (some "") m mm limit offset
         = ModelInfo.list_hardware store none m mm limit offset) ∧
    (∀ (store : List ModelInfo.HardwareRow) (t : Option String) (mm : Option Int)
       (limit offset : Int),
       ModelInfo.list_hardware store t (some "") mm limit offset
         = ModelInfo.list_hardware store t none mm limit offset) ∧
    (∀ (store : List ModelInfo.HardwareRow) (t m : Option String)
       (limit offset : Int),
       ModelInfo.list_hardware store t m (some 0) limit offset
         = ModelInfo.list_hardware store t m none limit offset) :=
  ⟨fun _ _ _ => rfl, fun _ _ _ _ _ => rfl, fun _ _ _ _ _ => rfl, fun _ _ _ _ _ => rfl⟩

/-- C5: a failure while processing one URL does not abort the batch.
If fetching the item at position `i` of the URL list succeeds but
building its row raises (`Except.error`), the error row is written for
that item and every following URL still contributes its own rows
unchanged, so the set of items attempted does not depend on which items
fail. -/
theorem create_models_csv_isolates_failures
    (oracle : String → Option (List (String × PyVal)))
    (pre post : List String) (url : String) (mi : List (String × PyVal)) (e : String)
    (hfetch : oracle (ModelFetch.extract_model_id url) = some mi)
    (herr : ModelFetch.buildCsvRow (ModelFetch.extract_model_id url) mi
      = Except.error e) :
    ModelFetch.create_models_csv oracle (pre ++ url :: post)
      = ModelFetch.csvHeaders ::
        ((pre.map (ModelFetch.processUrl oracle)).flatten
          ++ ModelFetch.errorRow (ModelFetch.extract_model_id url) e
             :: (post.map (ModelFetch.processUrl oracle)).flatten) := by
  have hurl : ModelFetch.processUrl oracle url
      = [ModelFetch.errorRow (ModelFetch.extract_model_id url) e] := by
    simp [ModelFetch.processUrl, hfetch, herr, ModelFetch.errorRow]
  simp [ModelFetch.create_models_csv, List.map_append, List.flatten_append, hurl]

/-- Witness for C5: the middle URL's tags value makes the join raise;
the URLs before and after it are still attempted. -/
theorem create_models_csv_isolates_failures_witness :
    ModelFetch.create_models_csv
        (fun m => if m == "bad" then some [("tags", PyVal.plist [PyVal.pint 1])]
                  else none)
        (["https://huggingface.co/good0"]
          ++ "https://huggingface.co/bad" :: ["plainid"])
      = ModelFetch.csvHeaders ::
        ((["https://huggingface.co/good0"].map
            (ModelFetch.processUrl
              (fun m => if m == "bad" then some [("tags", PyVal.plist [PyVal.pint 1])]
                        else none))).flatten
          ++ ModelFetch.errorRow
               (ModelFetch.extract_model_id "https://huggingface.co/bad")
               "TypeError: sequence item: expected str instance"
             :: (["plainid"].map
                  (ModelFetch.processUrl
                    (fun m => if m == "bad" then some [("tags", PyVal.plist [PyVal.pint 1])]
                              else none))).flatten) :=
  create_models_csv_isolates_failures
    (fun m => if m == "bad" then some [("tags", PyVal.plist [PyVal.pint 1])] else none)
    ["https://huggingface.co/good0"] ["plainid"] "https://huggingface.co/bad"
    [("tags", PyVal.plist [PyVal.pint 1])]
    "TypeError: sequence item: expected str instance" rfl rfl

/-- C8 counterexample: a metadata dictionary in which `author` is absent
(so the dictionary is in the claim's scope: "any of ... is absent or
None") but whose `tags` value is a list containing a non-string.
Building the CSV row raises a `TypeError` in the tags join, so the
construction is not exception-free for every such dictionary. -/
theorem safe_data_missing_fields_counterexample :
    dictGet [("tags", PyVal.plist [PyVal.pint 1])] "author" = PyVal.pnone ∧
    ModelFetch.buildCsvRow "m" [("tags", PyVal.plist [PyVal.pint 1])]
      = Except.error "TypeError: sequence item: expected str instance" :=
  ⟨rfl, rfl⟩

lemma allStrings_map_pstr (ss : List String) :
    allStrings (ss.map PyVal.pstr) = some ss := by
  induction ss with
  | nil => rfl
  | cons s rest ih => simp [allStrings, ih]

lemma join_ok_of_wellFormed (v : PyVal) (h : ModelFetch.tagsWellFormed v) :
    ∃ s, (if pyTruthy v then pyJoin ", " v else Except.ok "") = Except.ok s ∧
      ((v = PyVal.plist [] ∨ v = PyVal.pnone) → s = "") := by
  rcases h with h | ⟨ss, h⟩
  · subst h
    exact ⟨"", rfl, fun _ => rfl⟩
  · subst h
    cases ss with
    | nil => exact ⟨"", rfl, fun _ => rfl⟩
    | cons s rest =>
      refine ⟨⟨joinSep ", ".data (((s :: rest)).map (fun t => t.data))⟩, ?_, ?_⟩
      · simp [pyTruthy, pyJoin, allStrings, allStrings_map_pstr]
      · intro hcase
        rcases hcase with hc | hc <;> simp at hc

/-- C8 (amended): for every metadata dictionary whose `tags` value is
absent, `None`, or a list of strings, building `safe_data` and the CSV
row raises no exception, the row has its ten string fields, each listed
field that is absent or `None` is normalized to `""` (`"0"` for
`downloads` and `likes`), an absent `tags` defaults to the empty list,
and an empty-or-`None` `tags` yields an empty tags cell in the row. -/
theorem safe_data_tolerates_missing_fields (model_id : String)
    (mi : List (String × PyVal))
    (htags : ModelFetch.tagsWellFormed (dictGetD mi "tags" (PyVal.plist []))) :
    (∃ row, ModelFetch.buildCsvRow model_id mi = Except.ok row ∧ row.length = 10 ∧
      ((dictGetD mi "tags" (PyVal.plist []) = PyVal.plist [] ∨
        dictGetD mi "tags" (PyVal.plist []) = PyVal.pnone) → row.get? 4 = some "")) ∧
    (dictGet mi "author" = PyVal.pnone →
      (ModelFetch.buildSafeData model_id mi).author = "") ∧
    (dictGet mi "downloads" = PyVal.pnone →
      (ModelFetch.buildSafeData model_id mi).downloads = "0") ∧
    (dictGet mi "likes" = PyVal.pnone →
      (ModelFetch.buildSafeData model_id mi).likes = "0") ∧
    (dictGet mi "pipeline_tag" = PyVal.pnone →
      (ModelFetch.buildSafeData model_id mi).pipeline_tag = "") ∧
    (dictGet mi "description" = PyVal.pnone →
      (ModelFetch.buildSafeData model_id mi).description = "") ∧
    (dictGet mi "model_type" = PyVal.pnone →
      (ModelFetch.buildSafeData model_id mi).model_type = "") ∧
    (dictGet mi "last_modified" = PyVal.pnone →
      (ModelFetch.buildSafeData model_id mi).last_modified = "") ∧
    (dictGetD mi "tags" (PyVal.plist []) = PyVal.plist [] →
      (ModelFetch.buildSafeData model_id mi).tags = PyVal.plist []) := by
  obtain ⟨s, hs, hs0⟩ :=
    join_ok_of_wellFormed ((ModelFetch.buildSafeData model_id mi).tags) htags
  refine ⟨?_, ?_, ?_, ?_, ?_, ?_, ?_, ?_, ?_⟩
  · simp only [ModelFetch.buildCsvRow]
    rw [hs]
    refine ⟨_, rfl, rfl, ?_⟩
    intro hcase
    have hsq : s = "" := hs0 hcase
    subst hsq
    rfl
  · intro hx
    simp [ModelFetch.buildSafeData, hx, pyOr, pyTruthy, pyStr]
  · intro hx
    simp [ModelFetch.buildSafeData, hx, pyOr, pyTruthy, pyStr]
    rfl
  · intro hx
    simp [ModelFetch.buildSafeData, hx, pyOr, pyTruthy, pyStr]
    rfl
  · intro hx
    simp [ModelFetch.buildSafeData, hx, pyOr, pyTruthy, pyStr]
  · intro hx
    simp [ModelFetch.buildSafeData, hx, pyOr, pyTruthy, pyStr]
  · intro hx
    simp [ModelFetch.buildSafeData, hx, pyOr, pyTruthy, pyStr]
  · intro hx
    simp [ModelFetch.buildSafeData, hx, pyOr, pyTruthy, pyStr]
  · intro hx
    simp [ModelFetch.buildSafeData, hx]

/-- Witness for the amended C8 at the empty dictionary (every field
absent). -/
theorem safe_data_tolerates_missing_fields_witness :
    (∃ row, ModelFetch.buildCsvRow "m" [] = Except.ok row ∧ row.length = 10 ∧
      ((dictGetD [] "tags" (PyVal.plist []) = PyVal.plist [] ∨
        dictGetD [] "tags" (PyVal.plist []) = PyVal.pnone) → row.get? 4 = some "")) ∧
    (dictGet [] "author" = PyVal.pnone →
      (ModelFetch.buildSafeData "m" []).author = "") ∧
    (dictGet [] "downloads" = PyVal.pnone →
      (ModelFetch.buildSafeData "m" []).downloads = "0") ∧
    (dictGet [] "likes" = PyVal.pnone →
      (ModelFetch.buildSafeData "m" []).likes = "0") ∧
    (dictGet [] "pipeline_tag" = PyVal.pnone →
      (ModelFetch.buildSafeData "m" []).pipeline_tag = "") ∧
    (dictGet [] "description" = PyVal.pnone →
      (ModelFetch.buildSafeData "m" []).description = "") ∧
    (dictGet [] "model_type" = PyVal.pnone →
      (ModelFetch.buildSafeData "m" []).model_type = "") ∧
    (dictGet [] "last_modified" = PyVal.pnone →
      (ModelFetch.buildSafeData "m" []).last_modified = "") ∧
    (dictGetD [] "tags" (PyVal.plist []) = PyVal.plist [] →
      (ModelFetch.buildSafeData "m" []).tags = PyVal.plist []) :=
  safe_data_tolerates_missing_fields "m" [] (Or.inr ⟨[], rfl⟩)
